import Mathlib

/-!
Verification of the core sequential-outcome analyzer of a trading-journal app.

The program keeps an ordered log of trade outcomes (the `Win/Lose` column,
integers where `1` means a win) together with derived columns:
running winning/losing streaks, a rolling win rate, and a stored
categorical trading state.  The core functions are

* `calculate_streaks` : one pass over the outcomes, carrying counters
  `current_win`/`current_loss`; a win increments the win counter and resets
  the loss counter, a loss does the converse; the counter values after each
  step form the two streak columns.
* `calculate_win_rate` : rolling mean of the outcome column over a trailing
  window with a minimum of one observation (so the window shrinks at the
  start), scaled to percent.  With at least one observation in every window
  the no-data fill value (50) is never used, so it does not appear in the
  embedding.
* `predict_state` : looks at exactly the last 5 outcomes; with fewer than 5
  outcomes (or an empty log) it returns `("Neutral", 0.65)`, otherwise it
  returns `("Good", 0.90)` when the mean of the last 5 exceeds 50 percent,
  `("Bad", 0.95)` when it is below, and `("Neutral", 0.65)` at exactly 50.
* the append handler of the main form: it appends a fresh row with default
  derived fields, recomputes the win rate and streak columns, predicts the
  state over the updated log, and stores that prediction in the last row
  only.

Rationals replace Python floats: every quantity involved is a finite
decimal or a mean of finitely many integers, and all comparisons the code
performs on them are exact at these scales.
-/

/-- One step stream of streak counter pairs.  Mirrors the loop of
`calculate_streaks`: `cw`/`cl` are `current_win`/`current_loss` before the
next outcome is consumed; each consumed outcome appends the updated pair. -/
def streaksFrom (cw cl : Nat) : List Int → List (Nat × Nat)
  | [] => []
  | o :: rest =>
    if o = 1 then (cw + 1, 0) :: streaksFrom (cw + 1) 0 rest
    else (0, cl + 1) :: streaksFrom 0 (cl + 1) rest

/-- `calculate_streaks` of `src/app.py` restricted to the data it reads and
writes: from the `Win/Lose` column it produces the `Winning Streak` and
`Losing Streak` columns. -/
def calculate_streaks (wl : List Int) : List Nat × List Nat :=
  ((streaksFrom 0 0 wl).map Prod.fst, (streaksFrom 0 0 wl).map Prod.snd)

/-- `calculate_win_rate` of `src/app.py` restricted to the data it reads and
writes: `WinRate[i]` is the mean of the outcomes in the trailing window
`[max(0, i+1-window), i]` (at least one observation, so the window shrinks
near the start), scaled to percent. -/
def calculate_win_rate (wl : List Int) (window : Nat) : List ℚ :=
  (List.range wl.length).map (fun i =>
    (((wl.take (i + 1)).drop (i + 1 - window)).sum : ℚ)
      / ((wl.take (i + 1)).drop (i + 1 - window)).length * 100)

/-- `predict_state` of `src/app.py` restricted to the column it reads: the
`Win/Lose` column of the dataframe it is handed. -/
def predict_state (wl : List Int) : String × ℚ :=
  if wl.isEmpty then ("Neutral", 0.65)
  else
    let last_5 := wl.drop (wl.length - 5)
    if last_5.length < 5 then ("Neutral", 0.65)
    else
      let win_rate : ℚ := (last_5.sum : ℚ) / last_5.length * 100
      if win_rate > 50 then ("Good", 0.90)
      else if win_rate < 50 then ("Bad", 0.95)
      else ("Neutral", 0.65)

/-- The columns of the trade dataframe manipulated by the core functions
(the `Date` column is never read by them and is omitted). -/
structure TradeDF where
  winLose : List Int
  gain : List ℚ
  winStreak : List Nat
  lossStreak : List Nat
  winRate : List ℚ
  tradingState : List String
  deriving Repr, DecidableEq

/-- `calculate_streaks` at the dataframe level: an empty frame is returned
unchanged, otherwise the two streak columns are overwritten. -/
def calculate_streaks_df (df : TradeDF) : TradeDF :=
  if df.winLose.isEmpty then df
  else { df with winStreak := (calculate_streaks df.winLose).1,
                 lossStreak := (calculate_streaks df.winLose).2 }

/-- `calculate_win_rate` at the dataframe level: an empty frame is returned
unchanged, otherwise the `WinRate` column is overwritten. -/
def calculate_win_rate_df (df : TradeDF) (window : Nat) : TradeDF :=
  if df.winLose.isEmpty then df
  else { df with winRate := calculate_win_rate df.winLose window }

/-- The save-trade handler of `main` in `src/app.py`: append a new row with
default derived fields, recompute win rate (window 5) and streaks, predict
the state over the updated log, and store the prediction in the last row. -/
def append_trade (df : TradeDF) (w : Int) (g : ℚ) : TradeDF :=
  let concatenated : TradeDF :=
    { winLose := df.winLose ++ [w]
      gain := df.gain ++ [g]
      winStreak := df.winStreak ++ [0]
      lossStreak := df.lossStreak ++ [0]
      winRate := df.winRate ++ [0]
      tradingState := df.tradingState ++ ["Neutral"] }
  let updated := calculate_streaks_df (calculate_win_rate_df concatenated 5)
  let prediction := (predict_state updated.winLose).1
  { updated with
      tradingState :=
        updated.tradingState.set (updated.tradingState.length - 1) prediction }

/-- One trade record with its derived fields, as described by the spec's
data model (the timestamp is never read by the predictor and is omitted). -/
structure TradeRecord where
  winLose : Int
  gain : ℚ
  winning_streak : Nat
  losing_streak : Nat
  win_rate : ℚ
  state : String
  deriving Repr, DecidableEq

/-- Modelled from the spec: the baseline threshold-rule variant of
`predictState` (spec §4.1), which appears only in revisions of the app that
are not under `src/` (`src/app.py` carries the fixed-window variant).  It
consults only the last record's derived fields: losing streak at least 2 or
win rate below 45 gives `Bad`/0.95; otherwise winning streak at least 2 and
win rate above the good-threshold (45 here, the spec's first choice) gives
`Good`/0.90; otherwise `Neutral`/0.65; an empty log gives `Neutral`/0.65. -/
def predict_state_threshold (log : List TradeRecord) : String × ℚ :=
  match log.getLast? with
  | none => ("Neutral", 0.65)
  | some r =>
    if 2 ≤ r.losing_streak ∨ r.win_rate < 45 then ("Bad", 0.95)
    else if 2 ≤ r.winning_streak ∧ 45 < r.win_rate then ("Good", 0.90)
    else ("Neutral", 0.65)

/-! ### Helper lemmas -/

theorem streaksFrom_length (wl : List Int) : ∀ cw cl,
    (streaksFrom cw cl wl).length = wl.length := by
  induction wl with
  | nil => intro cw cl; rfl
  | cons o rest ih =>
    intro cw cl
    by_cases h : o = 1 <;> simp [streaksFrom, h, ih]

/-- The defining recurrence of the streak stream, read off positionally. -/
theorem streaksFrom_getD (wl : List Int) : ∀ cw cl i, i < wl.length →
    (streaksFrom cw cl wl).getD i (0, 0) =
      if wl.getD i 0 = 1 then
        ((if i = 0 then cw else ((streaksFrom cw cl wl).getD (i - 1) (0, 0)).1) + 1, 0)
      else
        (0, (if i = 0 then cl else ((streaksFrom cw cl wl).getD (i - 1) (0, 0)).2) + 1) := by
  induction wl with
  | nil => intro cw cl i hi; simp at hi
  | cons o rest ih =>
    intro cw cl i hi
    by_cases ho : o = 1
    · cases i with
      | zero => simp [streaksFrom, ho]
      | succ j =>
        have hj : j < rest.length := by simpa using hi
        have hrec := ih (cw + 1) 0 j hj
        cases j with
        | zero =>
          simpa [streaksFrom, ho] using hrec
        | succ k =>
          simpa [streaksFrom, ho] using hrec
    · cases i with
      | zero => simp [streaksFrom, ho]
      | succ j =>
        have hj : j < rest.length := by simpa using hi
        have hrec := ih 0 (cl + 1) j hj
        cases j with
        | zero =>
          simpa [streaksFrom, ho] using hrec
        | succ k =>
          simpa [streaksFrom, ho] using hrec

theorem getD_map_fst (S : List (Nat × Nat)) (i : Nat) (h : i < S.length) :
    (S.map Prod.fst).getD i 0 = (S.getD i (0, 0)).1 := by
  rw [List.getD_eq_getElem _ _ (by simpa using h), List.getD_eq_getElem _ _ h,
    List.getElem_map]

theorem getD_map_snd (S : List (Nat × Nat)) (i : Nat) (h : i < S.length) :
    (S.map Prod.snd).getD i 0 = (S.getD i (0, 0)).2 := by
  rw [List.getD_eq_getElem _ _ (by simpa using h), List.getD_eq_getElem _ _ h,
    List.getElem_map]

/-- With at least 5 outcomes, `predict_state` reduces to the three-way
comparison of the last-5 mean percentage against 50. -/
theorem predict_state_eq_of_five (wl : List Int) (h5 : 5 ≤ wl.length) :
    predict_state wl =
      (if 50 < ((wl.drop (wl.length - 5)).sum : ℚ) / 5 * 100 then ("Good", 0.90)
       else if ((wl.drop (wl.length - 5)).sum : ℚ) / 5 * 100 < 50 then ("Bad", 0.95)
       else ("Neutral", 0.65)) := by
  have hne : ¬ wl.isEmpty = true := by
    cases wl with
    | nil => simp at h5
    | cons a l => simp
  have hlen : (wl.drop (wl.length - 5)).length = 5 := by
    rw [List.length_drop]; omega
  simp [predict_state, hne, hlen]

/-! ### Claim theorems -/

/-- C3: for every trade log containing fewer than 5 records, including the
empty log, `predict_state` returns `("Neutral", 0.65)`. -/
theorem predict_state_short_log_neutral (wl : List Int) (h : wl.length < 5) :
    predict_state wl = ("Neutral", 0.65) := by
  unfold predict_state
  by_cases he : wl.isEmpty
  · simp [he]
  · simp [he]
    intro hcon
    exact absurd hcon (by omega)

/-- Witness for C3: a log of exactly 4 trades yields `("Neutral", 0.65)`. -/
theorem predict_state_short_log_neutral_witness :
    predict_state [1, 1, 1, 1] = ("Neutral", 0.65) :=
  predict_state_short_log_neutral [1, 1, 1, 1] (by decide)

/-- C1: for every trade log with at least 5 recorded binary outcomes,
`predict_state` returns `("Good", 0.90)` when the mean win rate of the last
5 outcomes exceeds 50 percent, `("Bad", 0.95)` when it is below 50, and
`("Neutral", 0.65)` when it equals 50. -/
theorem predict_state_fixed_window_branches (wl : List Int)
    (h5 : 5 ≤ wl.length) (hbin : ∀ x ∈ wl, x = 0 ∨ x = 1) :
    (50 < ((wl.drop (wl.length - 5)).sum : ℚ) / 5 * 100 →
      predict_state wl = ("Good", 0.90)) ∧
    (((wl.drop (wl.length - 5)).sum : ℚ) / 5 * 100 < 50 →
      predict_state wl = ("Bad", 0.95)) ∧
    (((wl.drop (wl.length - 5)).sum : ℚ) / 5 * 100 = 50 →
      predict_state wl = ("Neutral", 0.65)) := by
  have h := predict_state_eq_of_five wl h5
  refine ⟨?_, ?_, ?_⟩ <;> intro hwr
  · rw [h, if_pos hwr]
  · rw [h, if_neg (by linarith), if_pos hwr]
  · rw [h, if_neg (by linarith), if_neg (by linarith)]

/-- Witness for C1: the last 5 outcomes `[W, W, W, L, L]` have mean win
rate 60 percent, so the result is `("Good", 0.90)`. -/
theorem predict_state_fixed_window_branches_witness :
    predict_state [1, 1, 1, 0, 0] = ("Good", 0.90) := by
  refine (predict_state_fixed_window_branches [1, 1, 1, 0, 0]
    (by decide) (by decide)).1 ?_
  norm_num

/-- C10: with at least 5 strictly binary outcomes, `predict_state` never
returns `Neutral`: the mean of 5 binary values is never exactly 50
percent, so the result is `("Good", 0.90)` or `("Bad", 0.95)`. -/
theorem predict_state_never_neutral (wl : List Int)
    (h5 : 5 ≤ wl.length) (hbin : ∀ x ∈ wl, x = 0 ∨ x = 1) :
    (predict_state wl = ("Good", 0.90) ∨ predict_state wl = ("Bad", 0.95)) ∧
    (predict_state wl).1 ≠ "Neutral" := by
  have h := predict_state_eq_of_five wl h5
  have hne : ((wl.drop (wl.length - 5)).sum : ℚ) / 5 * 100 ≠ 50 := by
    intro heq
    rcases le_or_lt (wl.drop (wl.length - 5)).sum 2 with hs | hs
    · have hc : ((wl.drop (wl.length - 5)).sum : ℚ) ≤ 2 := by exact_mod_cast hs
      linarith
    · have hs3 : 3 ≤ (wl.drop (wl.length - 5)).sum := hs
      have hc : (3 : ℚ) ≤ ((wl.drop (wl.length - 5)).sum : ℚ) := by exact_mod_cast hs3
      linarith
  rcases lt_trichotomy (((wl.drop (wl.length - 5)).sum : ℚ) / 5 * 100) 50 with hlt | heq | hgt
  · rw [h, if_neg (by linarith), if_pos hlt]
    exact ⟨Or.inr rfl, by decide⟩
  · exact absurd heq hne
  · rw [h, if_pos hgt]
    exact ⟨Or.inl rfl, by decide⟩

/-- Witness for C10 at an all-loss window of 5 binary outcomes. -/
theorem predict_state_never_neutral_witness :
    (predict_state [0, 0, 0, 0, 0] = ("Good", 0.90) ∨
      predict_state [0, 0, 0, 0, 0] = ("Bad", 0.95)) ∧
    (predict_state [0, 0, 0, 0, 0]).1 ≠ "Neutral" :=
  predict_state_never_neutral [0, 0, 0, 0, 0] (by decide) (by decide)

/-- C2: `calculate_streaks` returns two sequences of the input's length
satisfying the streak recurrence at every index (a win increments the win
streak and zeroes the loss streak, symmetrically for a loss), and the empty
input yields empty output. -/
theorem calculate_streaks_spec (wl : List Int) :
    (calculate_streaks wl).1.length = wl.length ∧
    (calculate_streaks wl).2.length = wl.length ∧
    (∀ i, i < wl.length →
      (wl.getD i 0 = 1 →
        (calculate_streaks wl).1.getD i 0 =
          (if i = 0 then 1 else (calculate_streaks wl).1.getD (i - 1) 0 + 1) ∧
        (calculate_streaks wl).2.getD i 0 = 0) ∧
      (wl.getD i 0 ≠ 1 →
        (calculate_streaks wl).2.getD i 0 =
          (if i = 0 then 1 else (calculate_streaks wl).2.getD (i - 1) 0 + 1) ∧
        (calculate_streaks wl).1.getD i 0 = 0)) ∧
    calculate_streaks [] = ([], []) := by
  have hlenS := streaksFrom_length wl 0 0
  refine ⟨by simp [calculate_streaks, hlenS], by simp [calculate_streaks, hlenS], ?_, rfl⟩
  intro i hi
  have hiS : i < (streaksFrom 0 0 wl).length := by omega
  have hrec := streaksFrom_getD wl 0 0 i hi
  simp only [calculate_streaks]
  constructor
  · intro hwin
    rw [hwin] at hrec
    rw [if_pos rfl] at hrec
    refine ⟨?_, ?_⟩
    · by_cases h0 : i = 0
      · subst h0
        rw [getD_map_fst _ 0 hiS, hrec]
        simp
      · have hi1 : i - 1 < (streaksFrom 0 0 wl).length := by omega
        rw [if_neg h0, getD_map_fst _ i hiS, getD_map_fst _ (i - 1) hi1, hrec]
        simp [h0]
    · rw [getD_map_snd _ i hiS, hrec]
  · intro hloss
    rw [if_neg hloss] at hrec
    refine ⟨?_, ?_⟩
    · by_cases h0 : i = 0
      · subst h0
        rw [getD_map_snd _ 0 hiS, hrec]
        simp
      · have hi1 : i - 1 < (streaksFrom 0 0 wl).length := by omega
        rw [if_neg h0, getD_map_snd _ i hiS, getD_map_snd _ (i - 1) hi1, hrec]
        simp [h0]
    · rw [getD_map_fst _ i hiS, hrec]

/-- Witness for C2: on the log `[W, L]`, index 1 is a loss, so the loss
streak there is the previous loss streak plus one and the win streak is 0. -/
theorem calculate_streaks_spec_witness :
    ((calculate_streaks [1, 0]).2.getD 1 0 =
      (if 1 = 0 then 1 else (calculate_streaks [1, 0]).2.getD 0 0 + 1)) ∧
    (calculate_streaks [1, 0]).1.getD 1 0 = 0 :=
  ((calculate_streaks_spec [1, 0]).2.2.1 1 (by decide)).2 (by decide)

/-- C4: at every index of a non-empty outcome sequence, exactly one of the
two streak values is nonzero and the other is exactly 0. -/
theorem streaks_exactly_one_nonzero (wl : List Int) (i : Nat) (hi : i < wl.length) :
    ((calculate_streaks wl).1.getD i 0 = 0 ∧ (calculate_streaks wl).2.getD i 0 ≠ 0) ∨
    ((calculate_streaks wl).1.getD i 0 ≠ 0 ∧ (calculate_streaks wl).2.getD i 0 = 0) := by
  have hlenS := streaksFrom_length wl 0 0
  have hiS : i < (streaksFrom 0 0 wl).length := by omega
  have hrec := streaksFrom_getD wl 0 0 i hi
  simp only [calculate_streaks]
  rw [getD_map_fst _ i hiS, getD_map_snd _ i hiS]
  by_cases hwin : wl.getD i 0 = 1
  · rw [if_pos hwin] at hrec
    rw [hrec]
    exact Or.inr ⟨Nat.succ_ne_zero _, rfl⟩
  · rw [if_neg hwin] at hrec
    rw [hrec]
    exact Or.inl ⟨rfl, Nat.succ_ne_zero _⟩

/-- Witness for C4 on a one-win log at index 0. -/
theorem streaks_exactly_one_nonzero_witness :
    ((calculate_streaks [1]).1.getD 0 0 = 0 ∧ (calculate_streaks [1]).2.getD 0 0 ≠ 0) ∨
    ((calculate_streaks [1]).1.getD 0 0 ≠ 0 ∧ (calculate_streaks [1]).2.getD 0 0 = 0) :=
  streaks_exactly_one_nonzero [1] 0 (by decide)

/-- Positional value of the rolling win rate column. -/
theorem calculate_win_rate_getD (wl : List Int) (w i : Nat) (h : i < wl.length) :
    (calculate_win_rate wl w).getD i 0 =
      (((wl.take (i + 1)).drop (i + 1 - w)).sum : ℚ)
        / ((wl.take (i + 1)).drop (i + 1 - w)).length * 100 := by
  unfold calculate_win_rate
  rw [List.getD_eq_getElem _ _ (by simpa using h)]
  simp

/-- C6: with the shrinking-window policy, at every index with fewer than
`window` trades available the rolling win rate is the mean of the whole
prefix `outcomes[0..i]`, scaled to percent. -/
theorem win_rate_shrinking_window (wl : List Int) (w i : Nat)
    (hi : i < wl.length) (hw : i < w - 1) :
    (calculate_win_rate wl w).getD i 0 =
      ((wl.take (i + 1)).sum : ℚ) / ((i + 1 : ℕ) : ℚ) * 100 := by
  have h := calculate_win_rate_getD wl w i hi
  have hz : i + 1 - w = 0 := by omega
  have hlt : (wl.take (i + 1)).length = i + 1 := by
    rw [List.length_take]; omega
  rw [h, hz, List.drop_zero, hlt]

/-- Witness for C6: a single win yields win rate 100 at index 0. -/
theorem win_rate_shrinking_window_witness :
    (calculate_win_rate [1] 5).getD 0 0 = 100 := by
  have h := win_rate_shrinking_window [1] 5 0 (by decide) (by decide)
  rw [h]
  norm_num

/-- C7: for any window of size at least 1, an all-win sequence of length at
least the window has rolling win rate 100 at every index, and an all-loss
sequence has 0 at every index. -/
theorem win_rate_extremes (w n : Nat) (hw : 1 ≤ w) (hn : w ≤ n) :
    (∀ i, i < n → (calculate_win_rate (List.replicate n 1) w).getD i 0 = 100) ∧
    (∀ i, i < n → (calculate_win_rate (List.replicate n 0) w).getD i 0 = 0) := by
  constructor
  · intro i hi
    have h := calculate_win_rate_getD (List.replicate n (1 : ℤ)) w i (by simpa using hi)
    rw [h, List.take_replicate, List.drop_replicate]
    have hmin : min (i + 1) n = i + 1 := by omega
    rw [hmin, List.sum_replicate, List.length_replicate]
    have hpos : (0 : ℚ) < ((i + 1 - (i + 1 - w) : ℕ) : ℚ) := by
      have : 0 < i + 1 - (i + 1 - w) := by omega
      exact_mod_cast this
    have hne : ((i + 1 - (i + 1 - w) : ℕ) : ℚ) ≠ 0 := ne_of_gt hpos
    simp only [nsmul_eq_mul, mul_one, Int.cast_natCast]
    rw [div_self hne, one_mul]
  · intro i hi
    have h := calculate_win_rate_getD (List.replicate n (0 : ℤ)) w i (by simpa using hi)
    rw [h, List.take_replicate, List.drop_replicate]
    have hmin : min (i + 1) n = i + 1 := by omega
    rw [hmin, List.sum_replicate, List.length_replicate]
    simp

/-- Witness for C7 with window 2 over sequences of length 3. -/
theorem win_rate_extremes_witness :
    (∀ i, i < 3 → (calculate_win_rate (List.replicate 3 1) 2).getD i 0 = 100) ∧
    (∀ i, i < 3 → (calculate_win_rate (List.replicate 3 0) 2).getD i 0 = 0) :=
  win_rate_extremes 2 3 (by decide) (by decide)

/-- C5: in the threshold-rule predictor, every non-empty log whose last
record has losing streak at least 2 or win rate below 45 yields
`("Bad", 0.95)`, regardless of the other fields. -/
theorem predict_state_threshold_bad (log : List TradeRecord) (r : TradeRecord)
    (hlast : log.getLast? = some r)
    (hcond : 2 ≤ r.losing_streak ∨ r.win_rate < 45) :
    predict_state_threshold log = ("Bad", 0.95) := by
  unfold predict_state_threshold
  rw [hlast]
  exact if_pos hcond

/-- Witness for C5: a log ending with losing streak 2 and win rate 30. -/
theorem predict_state_threshold_bad_witness :
    predict_state_threshold [⟨1, 0, 0, 2, 30, "Neutral"⟩] = ("Bad", 0.95) :=
  predict_state_threshold_bad [⟨1, 0, 0, 2, 30, "Neutral"⟩]
    ⟨1, 0, 0, 2, 30, "Neutral"⟩ rfl (Or.inl (le_refl 2))

/-- C8: recomputing the derived columns a second time over the same
unchanged outcome sequence changes nothing: both dataframe-level functions
are idempotent, with no hidden state across calls. -/
theorem derived_recompute_idempotent (df : TradeDF) (w : Nat) :
    calculate_streaks_df (calculate_streaks_df df) = calculate_streaks_df df ∧
    calculate_win_rate_df (calculate_win_rate_df df w) w = calculate_win_rate_df df w := by
  constructor
  · by_cases h : df.winLose.isEmpty <;> simp [calculate_streaks_df, h]
  · by_cases h : df.winLose.isEmpty <;> simp [calculate_win_rate_df, h]

theorem calculate_streaks_df_tradingState (df : TradeDF) :
    (calculate_streaks_df df).tradingState = df.tradingState := by
  unfold calculate_streaks_df
  split <;> rfl

theorem calculate_win_rate_df_tradingState (df : TradeDF) (w : Nat) :
    (calculate_win_rate_df df w).tradingState = df.tradingState := by
  unfold calculate_win_rate_df
  split <;> rfl

/-- C9: appending a new trade assigns a state only to the new last row;
the stored state of every earlier row is unchanged by the append. -/
theorem append_trade_preserves_prior_states (df : TradeDF) (w : Int) (g : ℚ)
    (i : Nat) (hi : i < df.tradingState.length) :
    (append_trade df w g).tradingState.getD i "" = df.tradingState.getD i "" := by
  unfold append_trade
  simp only [calculate_streaks_df_tradingState, calculate_win_rate_df_tradingState]
  have hlen : (df.tradingState ++ ["Neutral"]).length = df.tradingState.length + 1 := by
    simp
  rw [List.getD_eq_getElem?_getD, List.getD_eq_getElem?_getD, hlen]
  rw [List.getElem?_set_ne (by omega : df.tradingState.length + 1 - 1 ≠ i)]
  rw [List.getElem?_append_left hi]

/-- Witness for C9: appending a loss to a one-row log leaves the stored
state of row 0 unchanged. -/
theorem append_trade_preserves_prior_states_witness :
    (append_trade ⟨[1], [5], [1], [0], [100], ["Good"]⟩ 0 (-2)).tradingState.getD 0 ""
      = (⟨[1], [5], [1], [0], [100], ["Good"]⟩ : TradeDF).tradingState.getD 0 "" :=
  append_trade_preserves_prior_states ⟨[1], [5], [1], [0], [100], ["Good"]⟩ 0 (-2) 0
    (by decide)
